import Mathlib

/-!
Shallow embedding of the `just-in-time` core subsystems:

* `scripts/migrate_timestamps.py`  (timestamp reconciler, migrate mode)
* `scripts/fix_timestamps.py`      (timestamp reconciler, repair mode)
* `crates/dispatch/examples/simple-orchestrator.py` (dispatch scheduler)

JSON dictionaries with optional keys are embedded as structures with
`Option String` fields (a missing key is `none`).  Python truthiness of a
string value (`if not s`) is `falsy`: `none` or the empty string.
Timestamps stay opaque strings, exactly as the scripts handle them: the
code only ever compares them for equality; chronological order enters the
development only as a hypothesis, stated for an arbitrary relation.
-/

namespace JIT

/-- One record of `events.jsonl`, as the scripts read it with `dict.get`:
every field may be absent. -/
structure Event where
  issue_id : Option String
  event_type : Option String
  timestamp : Option String
  deriving Repr, DecidableEq

/-- An issue record (one issue JSON file / one element of a `query ready`
response).  `extra` stands for all unrelated fields, which both scripts
carry through unchanged. -/
structure Issue where
  id : Option String
  priority : Option String
  created_at : Option String
  updated_at : Option String
  extra : List (String × String) := []
  deriving Repr, DecidableEq

/-- Python truthiness test `not s` for an optional string: true on a
missing key (`None`) and on the empty string. -/
def falsy : Option String → Bool
  | none => true
  | some s => s == ""

/-- `x if x else fallback`: the value when truthy, else the fallback. -/
def orFalsy (o : Option String) (fallback : String) : String :=
  match o with
  | none => fallback
  | some s => if s == "" then fallback else s

/-! ## Event Log Reader (`load_events`, identical in both scripts)

JSON parsing itself is outside the embedding: the log is given as the
list of per-line parse outcomes (`Except` carries the parse-error text).
`load_events` keeps the events that parsed, counts a warning for every
line that did not, and never fails. -/

/-- `load_events`: collect parsed events in order; each malformed line is
dropped and counted as one emitted warning. -/
def load_events (lines : List (Except String Event)) : List Event × Nat :=
  match lines with
  | [] => ([], 0)
  | Except.ok e :: rest =>
      let r := load_events rest
      (e :: r.1, r.2)
  | Except.error _ :: rest =>
      let r := load_events rest
      (r.1, r.2 + 1)

/-- The per-issue subsequence
`[e for e in events if e.get('issue_id') == issue_id]`, the same line in
both reconciler scripts. -/
def eventsFor (issue_id : String) (events : List Event) : List Event :=
  events.filter (fun e => e.issue_id == some issue_id)

/-- The timestamp strings of a list of events (meaningful when every
event carries one; a missing timestamp reads as `""`). -/
def eventTimes (l : List Event) : List String :=
  l.map (fun e => e.timestamp.getD "")

/-- Chronological order of the repository's timestamp strings: for RFC
3339 fixed-offset timestamps sharing one offset, chronological order is
exactly lexicographic order on the characters. -/
def rfc3339Before (s t : String) : Prop :=
  s.data < t.data

instance : DecidableRel rfc3339Before := fun s t =>
  inferInstanceAs (Decidable (s.data < t.data))

/-! ## Timestamp Reconciler, migrate mode (`migrate_timestamps.py`) -/

/-- `find_timestamps_from_events` (migrate_timestamps.py:42-69):
filter the log to this issue's events; `(None, None)` when there are
none; `created_at` from the first event whose `event_type` is
`issue_created`; `updated_at` from the last event of the subsequence. -/
def find_timestamps_from_events (issue_id : String) (events : List Event) :
    Option String × Option String :=
  let issue_events := eventsFor issue_id events
  if issue_events.isEmpty then (none, none)
  else
    let created_at :=
      (issue_events.find? (fun e => e.event_type == some "issue_created")).bind Event.timestamp
    let updated_at := issue_events.getLast?.bind Event.timestamp
    (created_at, updated_at)

/-- `migrate_issue` (migrate_timestamps.py:77-126), as a pure function of
the loaded record, the event list and the record file's mtime (already an
RFC 3339 string).  Returns the in-memory record after the call and the
`True if issue was modified` flag; dry-run only suppresses the write, so
persistence is modeled separately by `persisted`. -/
def migrate_issue (issue : Issue) (events : List Event) (file_timestamp : String) :
    Issue × Bool :=
  if falsy issue.id then (issue, false)
  else
    let issue_id := orFalsy issue.id ""
    if issue.created_at.isSome && issue.updated_at.isSome then (issue, false)
    else
      let ts := find_timestamps_from_events issue_id events
      let created_at := orFalsy ts.1 file_timestamp
      let updated_at := orFalsy ts.2 file_timestamp
      ({ issue with created_at := some created_at, updated_at := some updated_at }, true)

/-! ## Timestamp Reconciler, repair mode (`fix_timestamps.py`) -/

/-- `fix_issue_timestamps` (fix_timestamps.py:29-90) as a pure function:
skips records without an id, without both stored timestamps, without
events, or whose events lack timestamps; short-circuits when the stored
pair already equals (first event ts, last event ts); otherwise rewrites
the pair. -/
def fix_issue_timestamps (issue : Issue) (events : List Event) : Issue × Bool :=
  if falsy issue.id then (issue, false)
  else
    let issue_id := orFalsy issue.id ""
    let old_created := issue.created_at
    let old_updated := issue.updated_at
    if falsy old_created || falsy old_updated then (issue, false)
    else
      let issue_events := eventsFor issue_id events
      if issue_events.isEmpty then (issue, false)
      else
        let first_timestamp := issue_events.head?.bind Event.timestamp
        let last_timestamp := issue_events.getLast?.bind Event.timestamp
        if falsy first_timestamp || falsy last_timestamp then (issue, false)
        else
          if old_created == first_timestamp && old_updated == last_timestamp then
            (issue, false)
          else
            ({ issue with created_at := first_timestamp, updated_at := last_timestamp }, true)

/-- What ends up on disk after one reconciler call on one record: the new
record only when it reported a modification and dry-run is off. -/
def persisted (dry_run : Bool) (issue : Issue) (result : Issue × Bool) : Issue :=
  if result.2 && !dry_run then result.1 else issue

/-! ## Dispatch Scheduler (`simple-orchestrator.py`)

The `jit` subprocess calls are outside the embedding; their outcomes are
inputs.  The ready-issue query is the outcome of running and JSON-decoding
`jit query ready --json` (an `Except`, whose error covers both a process
error and a malformed response); the claim protocol is an oracle deciding
each `jit issue claim <issue> <agent>` call. -/

/-- An agent of the pool: capacity and current load.  Loads are `Int`
because Python integers are unbounded; validity `0 ≤ load ≤ max` is an
invariant, not a typing fact. -/
structure Agent where
  id : String
  max_concurrent : Int
  current_load : Int
  deriving Repr, DecidableEq

/-- The failure modes of the ready query: the subprocess failed
(`CalledProcessError`) or its stdout did not decode (`JSONDecodeError`). -/
inductive QueryError where
  | processError
  | malformedResponse
  deriving Repr, DecidableEq

/-- `query_ready_issues` (simple-orchestrator.py:34-47): the issue list on
success, and on either failure an empty list together with a printed
warning (the returned `Bool`). -/
def query_ready_issues (response : Except QueryError (List Issue)) :
    List Issue × Bool :=
  match response with
  | Except.ok issues => (issues, false)
  | Except.error _ => ([], true)

/-- The table `priority_order = {"critical": 0, "high": 1, "normal": 2, "low": 3}`. -/
def priority_order : String → Option Nat
  | "critical" => some 0
  | "high" => some 1
  | "normal" => some 2
  | "low" => some 3
  | _ => none

/-- The sort key `priority_order.get(i.get("priority", "normal"), 4)`:
a missing priority key defaults to `"normal"` before the table lookup;
a value outside the table ranks 4. -/
def rankOf (issue : Issue) : Nat :=
  (priority_order (issue.priority.getD "normal")).getD 4

/-- The order `ready_issues.sort(key=...)` sorts by: at most the rank. -/
def rankLe (a b : Issue) : Prop :=
  rankOf a ≤ rankOf b

instance : DecidableRel rankLe := fun a b =>
  inferInstanceAs (Decidable (rankOf a ≤ rankOf b))

instance : IsTotal Issue rankLe :=
  ⟨fun a b => Nat.le_total (rankOf a) (rankOf b)⟩

instance : IsTrans Issue rankLe :=
  ⟨fun _ _ _ hab hbc => Nat.le_trans hab hbc⟩

/-- `ready_issues.sort(key=rankOf)`: Python's `list.sort` is the stable
ascending sort by the key, so it is embedded as the stable
`List.insertionSort` by `rankLe` (a stable sort by a given key order is
unique, so the choice of stable algorithm does not matter). -/
def rankSort (issues : List Issue) : List Issue :=
  List.insertionSort rankLe issues

/-- `get_available_agent` (simple-orchestrator.py:62-67) combined with the
in-place `agent.current_load += 1` the cycle performs on the object it
returns: the id of the first agent with spare capacity together with the
pool as it would look after incrementing that agent's load, or `none`
when the pool is saturated. -/
def incr_first_available : List Agent → Option (String × List Agent)
  | [] => none
  | a :: rest =>
      if a.current_load < a.max_concurrent then
        some (a.id, { a with current_load := a.current_load + 1 } :: rest)
      else
        (incr_first_available rest).map (fun r => (r.1, a :: r.2))

/-- The `for issue in ready_issues` walk of `dispatch_cycle`
(simple-orchestrator.py:84-95).  `claim` decides each claim attempt from
the issue id and the namespaced agent id.  `issue["id"]` on a record
without an id raises `KeyError`, which nothing catches: the whole cycle
aborts, hence the `Option` result. -/
def dispatch_walk (claim : String → String → Bool) :
    List Issue → List Agent → Nat → Option (List Agent × Nat)
  | [], agents, assignments => some (agents, assignments)
  | issue :: rest, agents, assignments =>
      match incr_first_available agents with
      | none => some (agents, assignments)
      | some (aid, agents') =>
          match issue.id with
          | none => none
          | some issue_id =>
              if claim issue_id ("agent:" ++ aid) then
                dispatch_walk claim rest agents' (assignments + 1)
              else
                dispatch_walk claim rest agents assignments

/-- `dispatch_cycle` (simple-orchestrator.py:69-97): query, early-return 0
on an empty list, sort by priority rank, then the greedy walk.  Returns
the pool after the cycle and the assignment count, or `none` when the
walk raised. -/
def dispatch_cycle (claim : String → String → Bool)
    (response : Except QueryError (List Issue)) (agents : List Agent) :
    Option (List Agent × Nat) :=
  let ready_issues := (query_ready_issues response).1
  if ready_issues.isEmpty then some (agents, 0)
  else dispatch_walk claim (rankSort ready_issues) agents 0

/-- Total spare capacity of a pool: `Σ (max_concurrent − current_load)`. -/
def spare (agents : List Agent) : Int :=
  (agents.map (fun a => a.max_concurrent - a.current_load)).sum

/-- A pool is valid when every agent satisfies `0 ≤ current_load ≤
max_concurrent`. -/
def validPool (agents : List Agent) : Prop :=
  ∀ a ∈ agents, 0 ≤ a.current_load ∧ a.current_load ≤ a.max_concurrent

instance : DecidablePred validPool := fun agents =>
  List.decidableBAll _ agents

/-! ## Helper lemmas -/

theorem orFalsy_some_ne {s : String} (h : s ≠ "") (f : String) : orFalsy (some s) f = s := by
  simp [orFalsy, h]

theorem falsy_eq_false_iff {o : Option String} :
    falsy o = false ↔ ∃ s, o = some s ∧ s ≠ "" := by
  cases o <;> simp [falsy]

/-- Case analysis of `migrate_issue`: skip for a falsy id, skip when both
timestamp fields are present, otherwise rewrite both fields from the
derived values with the mtime fallback. -/
theorem migrate_issue_cases (issue : Issue) (events : List Event) (ft : String) :
    (falsy issue.id = true ∧ migrate_issue issue events ft = (issue, false)) ∨
    (falsy issue.id = false ∧ issue.created_at.isSome ∧ issue.updated_at.isSome ∧
      migrate_issue issue events ft = (issue, false)) ∨
    (falsy issue.id = false ∧ ¬(issue.created_at.isSome ∧ issue.updated_at.isSome) ∧
      migrate_issue issue events ft =
        ({ issue with
            created_at := some (orFalsy (find_timestamps_from_events (orFalsy issue.id "") events).1 ft),
            updated_at := some (orFalsy (find_timestamps_from_events (orFalsy issue.id "") events).2 ft) },
          true)) := by
  simp only [migrate_issue]
  split
  · exact Or.inl ⟨by assumption, rfl⟩
  · rename_i h1
    split
    · rename_i h2
      refine Or.inr (Or.inl ⟨by simpa using h1, ?_, ?_, rfl⟩)
      · exact (Bool.and_eq_true _ _ |>.mp h2).1
      · exact (Bool.and_eq_true _ _ |>.mp h2).2
    · rename_i h2
      refine Or.inr (Or.inr ⟨by simpa using h1, ?_, rfl⟩)
      intro hcu
      exact h2 (by simp [hcu.1, hcu.2])

/-- Case analysis of `fix_issue_timestamps`: either the record is
returned unchanged, or every guard passed and both fields are rewritten
to the first/last event timestamps of the issue's subsequence. -/
theorem fix_issue_cases (issue : Issue) (events : List Event) :
    fix_issue_timestamps issue events = (issue, false) ∨
    (∃ iid c u, issue.id = some iid ∧ iid ≠ "" ∧
      issue.created_at.isSome ∧ issue.updated_at.isSome ∧
      eventsFor iid events ≠ [] ∧
      (eventsFor iid events).head?.bind Event.timestamp = some c ∧ c ≠ "" ∧
      (eventsFor iid events).getLast?.bind Event.timestamp = some u ∧ u ≠ "" ∧
      fix_issue_timestamps issue events =
        ({ issue with created_at := some c, updated_at := some u }, true)) := by
  simp only [fix_issue_timestamps]
  split
  · exact Or.inl rfl
  · rename_i h1
    split
    · exact Or.inl rfl
    · rename_i h2
      split
      · exact Or.inl rfl
      · rename_i h3
        split
        · exact Or.inl rfl
        · rename_i h4
          split
          · exact Or.inl rfl
          · rename_i h5
            refine Or.inr ?_
            have hid : falsy issue.id = false := by simpa using h1
            obtain ⟨iid, hiid, hiidne⟩ := falsy_eq_false_iff.mp hid
            have h4' := h4
            rw [Bool.or_eq_true, not_or] at h4'
            obtain ⟨hc', hu'⟩ := h4'
            obtain ⟨c, hcs, hcne⟩ := falsy_eq_false_iff.mp (by simpa using hc')
            obtain ⟨u, hus, hune⟩ := falsy_eq_false_iff.mp (by simpa using hu')
            rw [Bool.or_eq_true, not_or] at h2
            obtain ⟨hoc, hou⟩ := h2
            obtain ⟨oc, hocs, _⟩ := falsy_eq_false_iff.mp (by simpa using hoc)
            obtain ⟨ou, hous, _⟩ := falsy_eq_false_iff.mp (by simpa using hou)
            have horf : orFalsy issue.id "" = iid := by
              rw [hiid, orFalsy_some_ne hiidne]
            rw [horf] at h3 hcs hus
            exact ⟨iid, c, u, hiid, hiidne, by simp [hocs], by simp [hous],
              by simpa using h3, hcs, hcne, hus, hune, by simp [horf, hcs, hus]⟩

theorem mem_of_getLast?_eq_some {α : Type} {l : List α} {a : α}
    (h : l.getLast? = some a) : a ∈ l := by
  have hx : a ∈ l.getLast? := by rw [Option.mem_def]; exact h
  obtain ⟨hne, rfl⟩ := List.mem_getLast?_eq_getLast hx
  exact List.getLast_mem hne

/-- In a `Pairwise R` list, the head is either the last element itself or
related to it by `R`. -/
theorem head_rel_getLast {α : Type} {R : α → α → Prop} {l : List α}
    (hp : List.Pairwise R l) {a b : α}
    (ha : l.head? = some a) (hb : l.getLast? = some b) : a = b ∨ R a b := by
  cases l with
  | nil => simp at ha
  | cons x xs =>
    have hxa : x = a := by simpa using ha
    subst hxa
    cases xs with
    | nil =>
      left
      have hb' : some x = some b := by simpa using hb
      exact Option.some.inj hb'
    | cons y ys =>
      right
      rw [List.getLast?_cons_cons] at hb
      exact List.rel_of_pairwise_cons hp (mem_of_getLast?_eq_some hb)

/-! ## Claims -/

/-- **C1** (corrected at a concrete input).  The claim says that with a
nonempty event subsequence but no creation marker, Migrate takes
`created_at` from the first event of the subsequence.  On this input the
subsequence is the single non-marker event timestamped
`2024-06-01T00:00:00+00:00`, yet Migrate writes the record's mtime
`2025-01-01T00:00:00+00:00` instead. -/
theorem C1_counterexample :
    (migrate_issue { id := some "i", priority := none, created_at := none, updated_at := none }
        [{ issue_id := some "i", event_type := some "note",
           timestamp := some "2024-06-01T00:00:00+00:00" }]
        "2025-01-01T00:00:00+00:00").1.created_at = some "2025-01-01T00:00:00+00:00" ∧
    some "2025-01-01T00:00:00+00:00" ≠
      ([({ issue_id := some "i", event_type := some "note",
           timestamp := some "2024-06-01T00:00:00+00:00" } : Event)].head?.bind Event.timestamp) := by
  exact ⟨by decide, by decide⟩

/-- **C1** (amended).  For an issue Migrate acts on, `created_at` is the
timestamp of the earliest event recognized as an issue-creation marker
when one exists with a non-empty timestamp; with no events at all both
fields fall back to the record's mtime; and with events but no creation
marker, `created_at` still falls back to the mtime — the
first-event-timestamp rule of the claim does not exist in migrate
mode. -/
theorem C1_migrate_created_at (issue : Issue) (events : List Event)
    (file_timestamp : String) (iid : String)
    (hid : issue.id = some iid) (hne : iid ≠ "")
    (hmissing : ¬(issue.created_at.isSome ∧ issue.updated_at.isSome)) :
    (eventsFor iid events = [] →
      (migrate_issue issue events file_timestamp).1.created_at = some file_timestamp ∧
      (migrate_issue issue events file_timestamp).1.updated_at = some file_timestamp) ∧
    (∀ e t, (eventsFor iid events).find? (fun e => e.event_type == some "issue_created") = some e →
      e.timestamp = some t → t ≠ "" →
      (migrate_issue issue events file_timestamp).1.created_at = some t) ∧
    (eventsFor iid events ≠ [] →
      (eventsFor iid events).find? (fun e => e.event_type == some "issue_created") = none →
      (migrate_issue issue events file_timestamp).1.created_at = some file_timestamp) := by
  rcases migrate_issue_cases issue events file_timestamp with
    ⟨h1, _⟩ | ⟨_, hc, hu, _⟩ | ⟨_, _, heq⟩
  · rw [hid] at h1; simp [falsy, hne] at h1
  · exact absurd ⟨hc, hu⟩ hmissing
  · have horf : orFalsy issue.id "" = iid := by rw [hid, orFalsy_some_ne hne]
    rw [horf] at heq
    refine ⟨?_, ?_, ?_⟩
    · intro hempty
      simp [heq, find_timestamps_from_events, hempty, orFalsy]
    · intro e t hfind hts htne
      have hnonempty : (eventsFor iid events).isEmpty = false := by
        cases hev : eventsFor iid events with
        | nil => rw [hev] at hfind; simp at hfind
        | cons a l => simp
      simp [heq, find_timestamps_from_events, hnonempty, hfind, hts, orFalsy_some_ne htne]
    · intro hne2 hfind
      have hnonempty : (eventsFor iid events).isEmpty = false :=
        List.isEmpty_eq_false.mpr hne2
      simp [heq, find_timestamps_from_events, hnonempty, hfind, orFalsy]

/-- Witness for C1: a concrete issue whose subsequence holds one creation
marker timestamped `T0`; Migrate writes `created_at = T0`. -/
theorem C1_witness :
    (migrate_issue { id := some "i", priority := none, created_at := none, updated_at := none }
        [{ issue_id := some "i", event_type := some "issue_created", timestamp := some "T0" }]
        "M").1.created_at = some "T0" := by
  have h := C1_migrate_created_at
    { id := some "i", priority := none, created_at := none, updated_at := none }
    [{ issue_id := some "i", event_type := some "issue_created", timestamp := some "T0" }]
    "M" "i" rfl (by decide) (by decide)
  exact h.2.1
    { issue_id := some "i", event_type := some "issue_created", timestamp := some "T0" }
    "T0" (by decide) rfl (by decide)

/-- **C2** (corrected at a concrete input).  The claim says an issue with
an absent priority ranks 4, after `low`.  In the code an absent priority
defaults to `"normal"` and ranks 2, so it sorts before a `low` issue. -/
theorem C2_counterexample :
    rankOf { id := some "i1", priority := none, created_at := none, updated_at := none } = 2 ∧
    rankOf { id := some "i1", priority := none, created_at := none, updated_at := none } ≠ 4 ∧
    rankSort [{ id := some "i1", priority := none, created_at := none, updated_at := none },
              { id := some "i2", priority := some "low", created_at := none, updated_at := none }]
      = [{ id := some "i1", priority := none, created_at := none, updated_at := none },
         { id := some "i2", priority := some "low", created_at := none, updated_at := none }] := by
  exact ⟨by decide, by decide, by decide⟩

/-- **C2** (amended).  The dispatch ranking sorts (stably) by the key
`critical=0 < high=1 < normal=2 < low=3`; an issue whose priority value
is *present but unrecognized* ranks 4, after all four known ranks, while
an issue whose priority is *absent* defaults to `"normal"` and ranks 2.
The ranked list is sorted by this key and is a permutation of the
input. -/
theorem C2_ranking (issues : List Issue) :
    (∀ i : Issue, i.priority = some "critical" → rankOf i = 0) ∧
    (∀ i : Issue, i.priority = some "high" → rankOf i = 1) ∧
    (∀ i : Issue, i.priority = some "normal" → rankOf i = 2) ∧
    (∀ i : Issue, i.priority = some "low" → rankOf i = 3) ∧
    (∀ i : Issue, i.priority = none → rankOf i = 2) ∧
    (∀ (i : Issue) (s : String), i.priority = some s →
      s ∉ (["critical", "high", "normal", "low"] : List String) → rankOf i = 4) ∧
    List.Sorted rankLe (rankSort issues) ∧
    (rankSort issues).Perm issues := by
  refine ⟨fun i h => by simp [rankOf, h, priority_order],
    fun i h => by simp [rankOf, h, priority_order],
    fun i h => by simp [rankOf, h, priority_order],
    fun i h => by simp [rankOf, h, priority_order],
    fun i h => by simp [rankOf, h, priority_order],
    fun i s h hs => ?_,
    List.sorted_insertionSort rankLe issues,
    List.perm_insertionSort rankLe issues⟩
  have hpo : priority_order s = none := by
    rw [priority_order.eq_def]
    split <;> simp_all
  simp [rankOf, h, hpo]

/-- Witness for C2: a present but unrecognized priority value ranks 4. -/
theorem C2_witness :
    rankOf { id := some "x", priority := some "urgent", created_at := none, updated_at := none } = 4 :=
  (C2_ranking []).2.2.2.2.2.1
    { id := some "x", priority := some "urgent", created_at := none, updated_at := none }
    "urgent" rfl (by decide)

/-- **C4** (corrected at a concrete input).  The claim says Migrate never
overwrites an existing timestamp field.  On this input the record already
carries `created_at = "OLD"` (only `updated_at` is missing), and Migrate
rewrites `created_at` to the creation event's `"NEW"`. -/
theorem C4_counterexample :
    ({ id := some "i", priority := none, created_at := some "OLD",
       updated_at := none } : Issue).created_at = some "OLD" ∧
    (migrate_issue { id := some "i", priority := none, created_at := some "OLD", updated_at := none }
        [{ issue_id := some "i", event_type := some "issue_created", timestamp := some "NEW" }]
        "M").1.created_at = some "NEW" ∧
    some "NEW" ≠ some "OLD" := by
  exact ⟨by decide, by decide, by decide⟩

/-- **C4** (amended).  Migrate acts only on issues missing one or both
timestamp fields: a record already carrying both fields is returned
untouched, and whenever Migrate reports a modification the record was
missing at least one field.  However, when exactly one field is present,
Migrate rewrites *both* fields, so the present one may be overwritten. -/
theorem C4_migrate_frame (issue : Issue) (events : List Event) (ft : String) :
    (issue.created_at.isSome → issue.updated_at.isSome →
      migrate_issue issue events ft = (issue, false)) ∧
    ((migrate_issue issue events ft).2 = true →
      ¬(issue.created_at.isSome ∧ issue.updated_at.isSome)) ∧
    ((migrate_issue issue events ft).2 = false →
      (migrate_issue issue events ft).1 = issue) := by
  rcases migrate_issue_cases issue events ft with
    ⟨h1, heq⟩ | ⟨h1, hc, hu, heq⟩ | ⟨h1, hcu, heq⟩
  · exact ⟨fun _ _ => heq, by simp [heq], by simp [heq]⟩
  · exact ⟨fun _ _ => heq, by simp [heq], by simp [heq]⟩
  · exact ⟨fun hc hu => absurd ⟨hc, hu⟩ hcu, fun _ => hcu, by simp [heq]⟩

/-- Witness for C4: a record with both fields present is untouched. -/
theorem C4_witness :
    migrate_issue { id := some "i", priority := none, created_at := some "C", updated_at := some "U" }
        [] "M"
      = ({ id := some "i", priority := none, created_at := some "C", updated_at := some "U" }, false) :=
  (C4_migrate_frame
    { id := some "i", priority := none, created_at := some "C", updated_at := some "U" } [] "M").1
    (by decide) (by decide)

/-- **C8** (confirmed).  A failed ready-issue query — process error or
malformed response — yields an empty issue list together with a reported
warning, and the dispatch cycle then returns assignment count 0 (with the
agent pool untouched) instead of crashing. -/
theorem C8_query_failure (err : QueryError) (claim : String → String → Bool)
    (agents : List Agent) :
    query_ready_issues (Except.error err) = ([], true) ∧
    dispatch_cycle claim (Except.error err) agents = some (agents, 0) :=
  ⟨rfl, rfl⟩

/-- **C9** (corrected at a concrete input).  The claim says malformed
input never aborts the containing dispatch cycle.  On this input the
single ready issue has no `id`; the cycle evaluates `issue["id"]`, the
uncaught `KeyError` aborts the whole cycle (result `none`) instead of
skipping the record. -/
theorem C9_counterexample :
    dispatch_cycle (fun _ _ => true)
      (Except.ok [{ id := none, priority := none, created_at := none, updated_at := none }])
      [{ id := "A", max_concurrent := 1, current_load := 0 }] = none := by
  decide

/-- **C9** (amended).  The event-log reader skips every unparseable line
with one surfaced warning and goes on processing the remaining lines, and
both reconciler passes skip an issue record missing its identifier with a
warning and leave it unchanged; but the dispatch cycle does *not* skip a
ready issue missing its identifier — when an agent is available, the
lookup of that issue's id aborts the whole cycle. -/
theorem C9_malformed_input :
    (∀ (pre post : List (Except String Event)) (msg : String),
      (load_events (pre ++ Except.error msg :: post)).1
        = (load_events pre).1 ++ (load_events post).1 ∧
      (load_events (pre ++ Except.error msg :: post)).2
        = (load_events pre).2 + (load_events post).2 + 1) ∧
    (∀ (issue : Issue) (events : List Event) (ft : String), issue.id = none →
      migrate_issue issue events ft = (issue, false) ∧
      fix_issue_timestamps issue events = (issue, false)) ∧
    (∀ (claim : String → String → Bool) (issue : Issue) (rest : List Issue)
        (agents agents2 : List Agent) (n : Nat) (aid : String),
      issue.id = none →
      incr_first_available agents = some (aid, agents2) →
      dispatch_walk claim (issue :: rest) agents n = none) := by
  refine ⟨?_, ?_, ?_⟩
  · intro pre post msg
    induction pre with
    | nil => simp [load_events]
    | cons x rest ih =>
      cases x with
      | error m => simp [load_events, ih]; omega
      | ok e => simp [load_events, ih]
  · intro issue events ft hid
    constructor
    · simp [migrate_issue, hid, falsy]
    · simp [fix_issue_timestamps, hid, falsy]
  · intro claim issue rest agents agents2 n aid hid hincr
    simp [dispatch_walk, hincr, hid]

/-- Witness for C9: the walk with one available agent and an id-less
issue aborts. -/
theorem C9_witness :
    dispatch_walk (fun _ _ => true)
      [{ id := none, priority := none, created_at := none, updated_at := none }]
      [{ id := "A", max_concurrent := 1, current_load := 0 }] 0 = none :=
  C9_malformed_input.2.2 (fun _ _ => true)
    { id := none, priority := none, created_at := none, updated_at := none } []
    [{ id := "A", max_concurrent := 1, current_load := 0 }]
    [{ id := "A", max_concurrent := 1, current_load := 1 }] 0 "A" rfl (by decide)

/-- **C10** (confirmed).  In both modes, for any record, event list,
mtime and dry-run setting, the record persisted by one reconciler call is
either exactly the input record (skipped, dry-run, or already correct) or
a record carrying both `created_at` and `updated_at`; a record with
exactly one reconciled field is never persisted. -/
theorem C10_all_or_nothing (dry : Bool) (issue : Issue) (events : List Event) (ft : String) :
    (persisted dry issue (migrate_issue issue events ft) = issue ∨
      ((persisted dry issue (migrate_issue issue events ft)).created_at.isSome ∧
        (persisted dry issue (migrate_issue issue events ft)).updated_at.isSome)) ∧
    (persisted dry issue (fix_issue_timestamps issue events) = issue ∨
      ((persisted dry issue (fix_issue_timestamps issue events)).created_at.isSome ∧
        (persisted dry issue (fix_issue_timestamps issue events)).updated_at.isSome)) := by
  constructor
  · rcases migrate_issue_cases issue events ft with
      ⟨_, heq⟩ | ⟨_, _, _, heq⟩ | ⟨_, _, heq⟩
    · left; simp [persisted, heq]
    · left; simp [persisted, heq]
    · cases dry
      · right; simp [persisted, heq]
      · left; simp [persisted, heq]
  · rcases fix_issue_cases issue events with
      heq | ⟨iid, c, u, _, _, _, _, _, _, _, _, _, heq⟩
    · left; simp [persisted, heq]
    · cases dry
      · right; simp [persisted, heq]
      · left; simp [persisted, heq]

/-- **C7** (confirmed).  Running the reconciler twice on the same inputs
produces no change on the second run, for every record, event list and
mtimes (the mtime may even differ between the runs): Migrate
short-circuits because the first run either left the record alone or
stored both fields, and Repair short-circuits because the freshly
computed values equal the ones the first run stored. -/
theorem C7_idempotent (issue : Issue) (events : List Event) (ft ft2 : String) :
    migrate_issue (migrate_issue issue events ft).1 events ft2
      = ((migrate_issue issue events ft).1, false) ∧
    fix_issue_timestamps (fix_issue_timestamps issue events).1 events
      = ((fix_issue_timestamps issue events).1, false) := by
  constructor
  · rcases migrate_issue_cases issue events ft with
      ⟨h1, heq⟩ | ⟨h1, hc, hu, heq⟩ | ⟨h1, hcu, heq⟩
    · rw [heq]
      rcases migrate_issue_cases issue events ft2 with
        ⟨_, heq2⟩ | ⟨_, _, _, heq2⟩ | ⟨h1', _, _⟩
      · exact heq2
      · exact heq2
      · rw [h1] at h1'; cases h1'
    · rw [heq]
      rcases migrate_issue_cases issue events ft2 with
        ⟨_, heq2⟩ | ⟨_, _, _, heq2⟩ | ⟨_, hcu2, _⟩
      · exact heq2
      · exact heq2
      · exact absurd ⟨hc, hu⟩ hcu2
    · rw [heq]
      rcases migrate_issue_cases (migrate_issue issue events ft).1 events ft2 with
        ⟨_, heq2⟩ | ⟨_, _, _, heq2⟩ | ⟨_, hcu2, _⟩
      · rw [heq] at heq2; exact heq2
      · rw [heq] at heq2; exact heq2
      · rw [heq] at hcu2; simp at hcu2
  · rcases fix_issue_cases issue events with
      heq | ⟨iid, c, u, hid, hiid, _, _, hne, hcs, hcne, hus, hune, heq⟩
    · rw [heq]; exact heq
    · rw [heq]
      have hempty : (eventsFor iid events).isEmpty = false :=
        List.isEmpty_eq_false.mpr hne
      simp [fix_issue_timestamps, hid, falsy, hiid, orFalsy_some_ne hiid,
        hempty, hcs, hus, hcne, hune]

/-- **C3** (corrected at a concrete input).  The claim says Repair
recomputes regardless of prior stored values, including when a stored
field is absent.  On this input the issue has the claimed three-event
subsequence but no stored `created_at`; Repair skips it unchanged, so
`created_at` stays `none` instead of becoming `T0`. -/
theorem C3_counterexample :
    fix_issue_timestamps
      { id := some "x", priority := none, created_at := none, updated_at := some "U" }
      [{ issue_id := some "x", event_type := some "issue_created", timestamp := some "T0" },
       { issue_id := some "x", event_type := some "note", timestamp := some "T1" },
       { issue_id := some "x", event_type := some "note", timestamp := some "T2" }]
      = ({ id := some "x", priority := none, created_at := none, updated_at := some "U" }, false) ∧
    (none : Option String) ≠ some "T0" := by
  exact ⟨by decide, by decide⟩

/-- **C3** (amended).  For an issue whose event subsequence is
`[e0@t0 (kind issue_created), e1@t1, e2@t2]`, Repair yields
`created_at = t0` and `updated_at = t2` regardless of which non-empty
values the stored timestamp pair held — provided both stored fields are
present and non-empty; when either stored field is absent or empty the
issue is skipped unchanged (the no-timestamps guard). -/
theorem C3_repair_recompute (issue : Issue) (events : List Event)
    (iid c u t0 t1 t2 : String) (e0 e1 e2 : Event)
    (hid : issue.id = some iid) (hiid : iid ≠ "")
    (hc : issue.created_at = some c) (hcne : c ≠ "")
    (hu : issue.updated_at = some u) (hune : u ≠ "")
    (hsub : eventsFor iid events = [e0, e1, e2])
    (_hk0 : e0.event_type = some "issue_created")
    (ht0 : e0.timestamp = some t0) (ht0ne : t0 ≠ "")
    (_ht1 : e1.timestamp = some t1)
    (ht2 : e2.timestamp = some t2) (ht2ne : t2 ≠ "") :
    (fix_issue_timestamps issue events).1.created_at = some t0 ∧
    (fix_issue_timestamps issue events).1.updated_at = some t2 := by
  simp only [fix_issue_timestamps, hid, hc, hu, orFalsy_some_ne hiid, hsub]
  simp only [falsy, List.isEmpty_cons, List.head?_cons, List.getLast?_cons_cons,
    List.getLast?_singleton, Option.some_bind, ht0, ht2]
  rw [if_neg (by simp [hiid]), if_neg (by simp [hcne, hune]), if_neg (by simp),
    if_neg (by simp [ht0ne, ht2ne])]
  split
  · rename_i hcond
    simp only [Bool.and_eq_true, beq_iff_eq, Option.some.injEq] at hcond
    simp [hc, hu, hcond.1, hcond.2]
  · simp

/-- Witness for C3: the claimed three-event shape on a record with both
stored fields present; Repair yields `created_at = T0`,
`updated_at = T2`. -/
theorem C3_witness :
    (fix_issue_timestamps
      { id := some "x", priority := none, created_at := some "A", updated_at := some "B" }
      [{ issue_id := some "x", event_type := some "issue_created", timestamp := some "T0" },
       { issue_id := some "x", event_type := some "note", timestamp := some "T1" },
       { issue_id := some "x", event_type := some "note", timestamp := some "T2" }]).1.created_at
      = some "T0" ∧
    (fix_issue_timestamps
      { id := some "x", priority := none, created_at := some "A", updated_at := some "B" }
      [{ issue_id := some "x", event_type := some "issue_created", timestamp := some "T0" },
       { issue_id := some "x", event_type := some "note", timestamp := some "T1" },
       { issue_id := some "x", event_type := some "note", timestamp := some "T2" }]).1.updated_at
      = some "T2" :=
  C3_repair_recompute
    { id := some "x", priority := none, created_at := some "A", updated_at := some "B" }
    [{ issue_id := some "x", event_type := some "issue_created", timestamp := some "T0" },
     { issue_id := some "x", event_type := some "note", timestamp := some "T1" },
     { issue_id := some "x", event_type := some "note", timestamp := some "T2" }]
    "x" "A" "B" "T0" "T1" "T2"
    { issue_id := some "x", event_type := some "issue_created", timestamp := some "T0" }
    { issue_id := some "x", event_type := some "note", timestamp := some "T1" }
    { issue_id := some "x", event_type := some "note", timestamp := some "T2" }
    rfl (by decide) rfl (by decide) rfl (by decide) (by decide) rfl rfl (by decide) rfl rfl (by decide)

end JIT

namespace JIT

theorem spare_cons (a : Agent) (l : List Agent) :
    spare (a :: l) = (a.max_concurrent - a.current_load) + spare l := by
  simp [spare]

theorem spare_nonneg {agents : List Agent} (h : validPool agents) : 0 ≤ spare agents := by
  unfold spare
  apply List.sum_nonneg
  intro x hx
  simp only [List.mem_map] at hx
  obtain ⟨a, ha, rfl⟩ := hx
  have := h a ha
  omega

theorem validPool_cons {a : Agent} {l : List Agent} :
    validPool (a :: l) ↔ (0 ≤ a.current_load ∧ a.current_load ≤ a.max_concurrent) ∧ validPool l := by
  constructor
  · intro h
    exact ⟨h a (List.mem_cons_self a l), fun x hx => h x (List.mem_cons_of_mem _ hx)⟩
  · rintro ⟨ha, hl⟩ x hx
    rcases List.mem_cons.mp hx with rfl | hx
    · exact ha
    · exact hl x hx

theorem incr_first_available_spec :
    ∀ (agents : List Agent), validPool agents →
      ∀ aid agents2, incr_first_available agents = some (aid, agents2) →
        validPool agents2 ∧ spare agents2 = spare agents - 1 ∧ 1 ≤ spare agents := by
  intro agents
  induction agents with
  | nil => intro _ aid ag2 h; simp [incr_first_available] at h
  | cons a rest ih =>
    intro hv aid ag2 h
    obtain ⟨hva, hvrest⟩ := validPool_cons.mp hv
    simp only [incr_first_available] at h
    split at h
    · rename_i hlt
      simp only [Option.some.injEq, Prod.mk.injEq] at h
      obtain ⟨rfl, rfl⟩ := h
      refine ⟨validPool_cons.mpr ⟨by constructor <;> (simp; omega), hvrest⟩, ?_, ?_⟩
      · simp only [spare_cons]; ring
      · have := spare_nonneg hvrest
        rw [spare_cons]
        omega
    · rename_i hge
      cases hrec : incr_first_available rest with
      | none => simp [hrec] at h
      | some pr =>
        simp only [hrec, Option.map_some', Option.some.injEq, Prod.mk.injEq] at h
        obtain ⟨rfl, rfl⟩ := h
        obtain ⟨hv2, hsp, hpos⟩ := ih hvrest pr.1 pr.2 (by rw [hrec])
        refine ⟨validPool_cons.mpr ⟨hva, hv2⟩, ?_, ?_⟩
        · rw [spare_cons, spare_cons, hsp]; ring
        · rw [spare_cons]; omega

end JIT

namespace JIT

theorem dispatch_walk_spec (claim : String → String → Bool) :
    ∀ (issues : List Issue) (agents : List Agent) (n : Nat) (agents2 : List Agent) (n2 : Nat),
      validPool agents →
      dispatch_walk claim issues agents n = some (agents2, n2) →
      validPool agents2 ∧ n ≤ n2 ∧ n2 ≤ n + issues.length ∧ (n2 : Int) - n ≤ spare agents := by
  intro issues
  induction issues with
  | nil =>
    intro agents n ag2 n2 hv h
    simp only [dispatch_walk, Option.some.injEq, Prod.mk.injEq] at h
    obtain ⟨rfl, rfl⟩ := h
    have := spare_nonneg hv
    exact ⟨hv, Nat.le_refl _, by simp, by omega⟩
  | cons issue rest ih =>
    intro agents n ag2 n2 hv h
    simp only [dispatch_walk] at h
    cases hincr : incr_first_available agents with
    | none =>
      rw [hincr] at h
      simp only [Option.some.injEq, Prod.mk.injEq] at h
      obtain ⟨rfl, rfl⟩ := h
      have := spare_nonneg hv
      exact ⟨hv, Nat.le_refl _, by simp, by omega⟩
    | some pr =>
      obtain ⟨aid, ag3⟩ := pr
      rw [hincr] at h
      obtain ⟨hv2, hsp, hpos⟩ := incr_first_available_spec agents hv aid ag3 (by rw [hincr])
      cases hid : issue.id with
      | none => rw [hid] at h; dsimp only at h; cases h
      | some iid =>
        rw [hid] at h
        dsimp only at h
        by_cases hcl : claim iid ("agent:" ++ aid) = true
        · rw [if_pos hcl] at h
          obtain ⟨hvr, hle, hub, hsb⟩ := ih ag3 (n + 1) ag2 n2 hv2 h
          rw [hsp] at hsb
          refine ⟨hvr, by omega, by simp [List.length_cons]; omega, by omega⟩
        · rw [if_neg hcl] at h
          obtain ⟨hvr, hle, hub, hsb⟩ := ih agents n ag2 n2 hv h
          refine ⟨hvr, hle, by simp [List.length_cons]; omega, hsb⟩

end JIT

namespace JIT

/-- **C6** (confirmed).  For every dispatch cycle that completes, on any
valid starting pool, the returned assignment count is at most the number
of ready issues returned by the query and at most the pool's total spare
capacity at cycle start, and the pool is still valid afterwards (every
agent satisfies `0 ≤ current_load ≤ max_concurrent`). -/
theorem C6_dispatch_bounds (claim : String → String → Bool)
    (response : Except QueryError (List Issue)) (agents agents2 : List Agent) (count : Nat)
    (hvalid : validPool agents)
    (hrun : dispatch_cycle claim response agents = some (agents2, count)) :
    count ≤ (query_ready_issues response).1.length ∧
    (count : Int) ≤ spare agents ∧
    validPool agents2 := by
  simp only [dispatch_cycle] at hrun
  split at hrun
  · simp only [Option.some.injEq, Prod.mk.injEq] at hrun
    obtain ⟨rfl, rfl⟩ := hrun
    exact ⟨Nat.zero_le _, spare_nonneg hvalid, hvalid⟩
  · obtain ⟨hvr, _, hub, hsb⟩ :=
      dispatch_walk_spec claim (rankSort (query_ready_issues response).1) agents 0
        agents2 count hvalid hrun
    refine ⟨?_, by omega, hvr⟩
    have hlen : (rankSort (query_ready_issues response).1).length
        = ((query_ready_issues response).1).length :=
      List.length_insertionSort rankLe _
    omega

/-- Witness for C6: the spec's own scenario — agents `A(max=1,load=0)`,
`B(max=1,load=1)`, ready issues `i1:high, i2:critical`, every claim
succeeding — completes with one assignment. -/
theorem C6_witness :
    1 ≤ (query_ready_issues (Except.ok
      [{ id := some "i1", priority := some "high", created_at := none, updated_at := none },
       { id := some "i2", priority := some "critical", created_at := none, updated_at := none }])).1.length ∧
    ((1 : Nat) : Int) ≤ spare [{ id := "A", max_concurrent := 1, current_load := 0 },
                              { id := "B", max_concurrent := 1, current_load := 1 }] ∧
    validPool [{ id := "A", max_concurrent := 1, current_load := 1 },
               { id := "B", max_concurrent := 1, current_load := 1 }] :=
  C6_dispatch_bounds (fun _ _ => true)
    (Except.ok
      [{ id := some "i1", priority := some "high", created_at := none, updated_at := none },
       { id := some "i2", priority := some "critical", created_at := none, updated_at := none }])
    [{ id := "A", max_concurrent := 1, current_load := 0 },
     { id := "B", max_concurrent := 1, current_load := 1 }]
    [{ id := "A", max_concurrent := 1, current_load := 1 },
     { id := "B", max_concurrent := 1, current_load := 1 }]
    1 (by decide) (by decide)

end JIT

namespace JIT

/-- **C5** (corrected at a concrete input).  The claim says the
reconciler always writes `created_at ≤ updated_at` and never a
`created_at` later than the earliest known event.  On this input (one
non-marker event, record mtime later than the event) Migrate writes
`created_at` = mtime `2025-01-01...`, strictly after both the written
`updated_at` and the earliest (only) event timestamp `2024-06-01...`. -/
theorem C5_counterexample :
    (migrate_issue { id := some "i", priority := none, created_at := none, updated_at := none }
        [{ issue_id := some "i", event_type := some "note",
           timestamp := some "2024-06-01T00:00:00+00:00" }]
        "2025-01-01T00:00:00+00:00").1.created_at = some "2025-01-01T00:00:00+00:00" ∧
    (migrate_issue { id := some "i", priority := none, created_at := none, updated_at := none }
        [{ issue_id := some "i", event_type := some "note",
           timestamp := some "2024-06-01T00:00:00+00:00" }]
        "2025-01-01T00:00:00+00:00").1.updated_at = some "2024-06-01T00:00:00+00:00" ∧
    rfc3339Before "2024-06-01T00:00:00+00:00" "2025-01-01T00:00:00+00:00" ∧
    ¬ rfc3339Before "2025-01-01T00:00:00+00:00" "2024-06-01T00:00:00+00:00" ∧
    "2025-01-01T00:00:00+00:00" ≠ "2024-06-01T00:00:00+00:00" := by
  exact ⟨by decide, by decide, by decide, by decide, by decide⟩

/-- **C5** (amended).  Stated over any chronological reading `R` of the
timestamp strings under which the issue's event subsequence is
nondecreasing (`Pairwise R`), with every event timestamped:
Repair, whenever it modifies a record, writes `created_at` equal to the
earliest event's timestamp (hence never later than it) and
`created_at ≤ updated_at`; Migrate guarantees the same only when the
issue has no events (both fields equal) or when the subsequence starts
with the creation marker — with events but no marker, the mtime fallback
can violate both bounds (see the counterexample). -/
theorem C5_reconciler_bounds {R : String → String → Prop}
    (issue : Issue) (events : List Event) (iid : String) (ft : String)
    (hid : issue.id = some iid) (hiid : iid ≠ "")
    (hts : ∀ e ∈ eventsFor iid events, falsy e.timestamp = false)
    (hsorted : List.Pairwise R (eventTimes (eventsFor iid events))) :
    ((fix_issue_timestamps issue events).2 = true →
      ∃ c u, (fix_issue_timestamps issue events).1.created_at = some c ∧
        (fix_issue_timestamps issue events).1.updated_at = some u ∧
        (c = u ∨ R c u) ∧
        (eventTimes (eventsFor iid events)).head? = some c) ∧
    (eventsFor iid events = [] →
      ¬(issue.created_at.isSome ∧ issue.updated_at.isSome) →
      (migrate_issue issue events ft).1.created_at
        = (migrate_issue issue events ft).1.updated_at) ∧
    (∀ e0 rest, eventsFor iid events = e0 :: rest →
      e0.event_type = some "issue_created" →
      ¬(issue.created_at.isSome ∧ issue.updated_at.isSome) →
      ∃ c u, (migrate_issue issue events ft).1.created_at = some c ∧
        (migrate_issue issue events ft).1.updated_at = some u ∧
        (c = u ∨ R c u) ∧
        (eventTimes (eventsFor iid events)).head? = some c) := by
  refine ⟨?_, ?_, ?_⟩
  · -- repair
    intro hmod
    rcases fix_issue_cases issue events with
      heq | ⟨iid2, c, u, hid2, _, _, _, hne, hcs, hcne, hus, hune, heq⟩
    · rw [heq] at hmod; simp at hmod
    · have hiid2 : iid2 = iid := by
        rw [hid] at hid2
        exact (Option.some.inj hid2).symm
      subst hiid2
      cases hhead : (eventsFor iid2 events).head? with
      | none => rw [hhead] at hcs; simp at hcs
      | some e0 =>
        cases hlastq : (eventsFor iid2 events).getLast? with
        | none => rw [hlastq] at hus; simp at hus
        | some elast =>
          rw [hhead] at hcs
          rw [hlastq] at hus
          simp only [Option.some_bind] at hcs hus
          have hheadT : (eventTimes (eventsFor iid2 events)).head? = some c := by
            unfold eventTimes
            rw [List.head?_map, hhead]
            simp [hcs]
          have hlastT : (eventTimes (eventsFor iid2 events)).getLast? = some u := by
            unfold eventTimes
            rw [List.getLast?_map, hlastq]
            simp [hus]
          exact ⟨c, u, by simp [heq], by simp [heq],
            head_rel_getLast hsorted hheadT hlastT, hheadT⟩
  · -- migrate, no events at all
    intro hempty hmissing
    rcases migrate_issue_cases issue events ft with
      ⟨h1, _⟩ | ⟨_, hc, hu, _⟩ | ⟨_, _, heq⟩
    · rw [hid] at h1; simp [falsy, hiid] at h1
    · exact absurd ⟨hc, hu⟩ hmissing
    · have horf : orFalsy issue.id "" = iid := by rw [hid, orFalsy_some_ne hiid]
      rw [horf] at heq
      simp [heq, find_timestamps_from_events, hempty, orFalsy]
  · -- migrate, subsequence starts with the creation marker
    intro e0 rest hsub hk hmissing
    rcases migrate_issue_cases issue events ft with
      ⟨h1, _⟩ | ⟨_, hc, hu, _⟩ | ⟨_, _, heq⟩
    · rw [hid] at h1; simp [falsy, hiid] at h1
    · exact absurd ⟨hc, hu⟩ hmissing
    · have horf : orFalsy issue.id "" = iid := by rw [hid, orFalsy_some_ne hiid]
      rw [horf] at heq
      have he0mem : e0 ∈ eventsFor iid events := by rw [hsub]; exact List.mem_cons_self _ _
      obtain ⟨c, hc0, hcne⟩ := falsy_eq_false_iff.mp (hts e0 he0mem)
      have hfind : (eventsFor iid events).find?
          (fun e => e.event_type == some "issue_created") = some e0 := by
        rw [hsub]
        exact List.find?_cons_of_pos _ (by simp [hk])
      cases hlastq : (eventsFor iid events).getLast? with
      | none =>
        rw [hsub] at hlastq
        simp at hlastq
      | some elast =>
        have hlmem : elast ∈ eventsFor iid events := mem_of_getLast?_eq_some hlastq
        obtain ⟨u, hu0, hune⟩ := falsy_eq_false_iff.mp (hts elast hlmem)
        have hnonempty : (eventsFor iid events).isEmpty = false :=
          List.isEmpty_eq_false.mpr (by rw [hsub]; exact List.cons_ne_nil _ _)
        have hcreated : (migrate_issue issue events ft).1.created_at = some c := by
          simp [heq, find_timestamps_from_events, hnonempty, hfind, hc0, orFalsy_some_ne hcne]
        have hupdated : (migrate_issue issue events ft).1.updated_at = some u := by
          simp [heq, find_timestamps_from_events, hnonempty, hlastq, hu0, orFalsy_some_ne hune]
        have hheadT : (eventTimes (eventsFor iid events)).head? = some c := by
          unfold eventTimes
          rw [List.head?_map, hsub]
          simp [hc0]
        have hlastT : (eventTimes (eventsFor iid events)).getLast? = some u := by
          unfold eventTimes
          rw [List.getLast?_map, hlastq]
          simp [hu0]
        exact ⟨c, u, hcreated, hupdated, head_rel_getLast hsorted hheadT hlastT, hheadT⟩

end JIT

namespace JIT

/-- Witness for C5: a record Repair modifies; the written pair is the
first/last event timestamps, ordered under the chosen reading. -/
theorem C5_witness :
    ∃ c u,
      (fix_issue_timestamps
        { id := some "x", priority := none, created_at := some "A", updated_at := some "B" }
        [{ issue_id := some "x", event_type := some "a", timestamp := some "T0" },
         { issue_id := some "x", event_type := some "b", timestamp := some "TT2" }]).1.created_at
        = some c ∧
      (fix_issue_timestamps
        { id := some "x", priority := none, created_at := some "A", updated_at := some "B" }
        [{ issue_id := some "x", event_type := some "a", timestamp := some "T0" },
         { issue_id := some "x", event_type := some "b", timestamp := some "TT2" }]).1.updated_at
        = some u ∧
      (c = u ∨ c.length ≤ u.length) ∧
      (eventTimes (eventsFor "x"
        [{ issue_id := some "x", event_type := some "a", timestamp := some "T0" },
         { issue_id := some "x", event_type := some "b", timestamp := some "TT2" }])).head?
        = some c :=
  (C5_reconciler_bounds (R := fun s t => s.length ≤ t.length)
    { id := some "x", priority := none, created_at := some "A", updated_at := some "B" }
    [{ issue_id := some "x", event_type := some "a", timestamp := some "T0" },
     { issue_id := some "x", event_type := some "b", timestamp := some "TT2" }]
    "x" "M" rfl (by decide) (by decide) (by decide)).1 (by decide)

end JIT
